import Mathlib

/-!
Verification of the SPED auditor core (`app.py`): the record parser and the
DIFAL evidence-correlation engine.  The Python code is shallowly embedded:
Python strings are modelled as `List Char`, Python floats as rationals
(nonfinite literals such as `inf`/`nan` lie outside the rational model and are
treated as unparsable), and the single streaming pass of
`auditoria_difal_text` becomes a fold over the list of input lines.
-/

namespace SpedAudit

/-- Python strings are modelled as lists of characters. -/
abbrev Str := List Char

/-- Characters stripped by Python `str.strip()` (ASCII whitespace:
space, tab, LF, VT, FF, CR). -/
def isPySpace (c : Char) : Bool :=
  c = ' ' || (9 ≤ c.toNat && c.toNat ≤ 13)

/-- Model of Python `str.strip()`: drop whitespace from both ends. -/
def pyStrip (s : Str) : Str :=
  ((s.dropWhile isPySpace).reverse.dropWhile isPySpace).reverse

/-- Model of Python `str.upper()` (ASCII letters; all codes in the data are ASCII). -/
def pyUpper (s : Str) : Str := s.map Char.toUpper

/-- Model of Python `line.split("|")`: list of chunks between pipe characters.
Never returns the empty list; the empty string splits to `[""]`. -/
def splitPipe : Str → List Str
  | [] => [[]]
  | c :: cs =>
    if c = '|' then [] :: splitPipe cs
    else (c :: (splitPipe cs).headD []) :: (splitPipe cs).tail

/-- Numeric value of a digit character. -/
def digitVal (c : Char) : Nat := c.toNat - 48

/-- Consume a maximal run of digits, allowing a single underscore between two
digits as Python numeric literals do.  Accumulates the value and the number of
digits consumed, returning the unconsumed rest. -/
def digRunAux (v : Nat) (n : Nat) : Str → Nat × Nat × Str
  | [] => (v, n, [])
  | c :: cs =>
    if c.isDigit then digRunAux (v * 10 + digitVal c) (n + 1) cs
    else if c = '_' then
      match cs with
      | d :: ds =>
        if d.isDigit then digRunAux (v * 10 + digitVal d) (n + 1) ds
        else (v, n, c :: cs)
      | [] => (v, n, c :: cs)
    else (v, n, c :: cs)

/-- A digit part of a Python float literal: at least one leading digit,
then a digit run possibly containing grouping underscores. -/
def takeDigitPart? : Str → Option (Nat × Nat × Str)
  | c :: cs => if c.isDigit then some (digRunAux (digitVal c) 1 cs) else none
  | [] => none

/-- Optional leading sign of a numeric literal; true means negative. -/
def takeSign : Str → Bool × Str
  | '+' :: r => (false, r)
  | '-' :: r => (true, r)
  | s => (false, s)

/-- Finish parsing a float literal after the mantissa: an optional exponent
part, after which the input must be exhausted.  The value is carried as a pair
(numerator, power-of-ten exponent): the denoted rational is `n * 10 ^ e`. -/
def finishExp (neg : Bool) (mant : Int) (sc : Int) : Str → Option (Int × Int)
  | [] => some (if neg then -mant else mant, sc)
  | e :: r1 =>
    if e = 'e' || e = 'E' then
      let (eneg, r2) := takeSign r1
      match takeDigitPart? r2 with
      | some (ev, _, r3) =>
        if r3 = [] then
          let sc' := if eneg then sc - (ev : Int) else sc + (ev : Int)
          some (if neg then -mant else mant, sc')
        else none
      | none => none
    else none

/-- Core grammar of a finite Python float literal:
`sign? (digits (. digits?)? | . digits) exponent?`; the result denotes the
rational `n * 10 ^ e`. -/
def pyFloatCoreRep? (s : Str) : Option (Int × Int) :=
  let (neg, s1) := takeSign s
  match takeDigitPart? s1 with
  | some (ip, _, r1) =>
    match r1 with
    | '.' :: r2 =>
      match takeDigitPart? r2 with
      | some (fv, fn, r3) =>
        finishExp neg ((ip : Int) * 10 ^ fn + (fv : Int)) (-(fn : Int)) r3
      | none => finishExp neg (ip : Int) 0 r2
    | _ => finishExp neg (ip : Int) 0 r1
  | none =>
    match s1 with
    | '.' :: r2 =>
      match takeDigitPart? r2 with
      | some (fv, fn, r3) => finishExp neg (fv : Int) (-(fn : Int)) r3
      | none => none
    | _ => none

/-- Integer representation of Python `float(str)` on finite decimal literals:
surrounding whitespace is tolerated, the empty string fails.  Nonfinite
literals (`inf`, `infinity`, `nan`) are outside the rational model and map to
`none`. -/
def pyFloatRep? (s : Str) : Option (Int × Int) :=
  let t := pyStrip s
  if t = [] then none else pyFloatCoreRep? t

/-- Rational denoted by a (numerator, power-of-ten exponent) pair.  Stated via
`mkRat` so that concrete values reduce inside the kernel. -/
def ratOfRep (p : Int × Int) : ℚ :=
  if 0 ≤ p.2 then mkRat (p.1 * 10 ^ p.2.toNat) 1 else mkRat p.1 (10 ^ (-p.2).toNat)

/-- Integer-representation core of `parse_float_br` (app.py:64-76): strip; the
empty string and every unparsable string yield `none` (the source returns 0.0
for both); otherwise try a direct `float` parse with spaces removed; on
failure drop the dots (thousands separators), turn the comma into a decimal
point and retry. -/
def parseFloatBrRep (x : Str) : Option (Int × Int) :=
  let x := pyStrip x
  if x = [] then none
  else
    match pyFloatRep? (x.filter (fun c => c ≠ ' ')) with
    | some p => some p
    | none =>
      pyFloatRep? ((x.filter (fun c => c ≠ '.')).map
        (fun c => if c = ',' then '.' else c))

/-- Embedding of `parse_float_br` (app.py:64-76): total numeric normalization,
returning 0 wherever the source returns 0.0 (empty input or both parse
attempts failing). -/
def parse_float_br (x : Str) : ℚ :=
  match parseFloatBrRep x with
  | some p => ratOfRep p
  | none => 0

/-- NFKD decomposition followed by `encode("ascii","ignore")` (app.py:81),
modelled on the Latin repertoire the fiscal files use: ASCII characters map to
themselves, accented Latin letters to their base letter, ordinal signs to
their letter, every other non-ASCII character is dropped. -/
def foldAscii (c : Char) : Str :=
  if c.toNat < 128 then [c]
  else match c with
    | 'á' | 'à' | 'â' | 'ã' | 'ä' => ['a']
    | 'Á' | 'À' | 'Â' | 'Ã' | 'Ä' => ['A']
    | 'é' | 'è' | 'ê' | 'ë' => ['e']
    | 'É' | 'È' | 'Ê' | 'Ë' => ['E']
    | 'í' | 'ì' | 'î' | 'ï' => ['i']
    | 'Í' | 'Ì' | 'Î' | 'Ï' => ['I']
    | 'ó' | 'ò' | 'ô' | 'õ' | 'ö' => ['o']
    | 'Ó' | 'Ò' | 'Ô' | 'Õ' | 'Ö' => ['O']
    | 'ú' | 'ù' | 'û' | 'ü' => ['u']
    | 'Ú' | 'Ù' | 'Û' | 'Ü' => ['U']
    | 'ç' => ['c']
    | 'Ç' => ['C']
    | 'ñ' => ['n']
    | 'Ñ' => ['N']
    | 'º' => ['o']
    | 'ª' => ['a']
    | _ => []

/-- Character class of the collapsing regex in `norm_txt`:
whitespace, dot, hyphen, underscore, slash, backslash. -/
def isSepClass (c : Char) : Bool :=
  isPySpace c || c = '.' || c = '-' || c = '_' || c = '/' || c = '\\'

/-- Collapse runs of spaces to a single space (the regex replacement after the
separator class has been mapped to spaces). -/
def squeezeSp : Str → Str
  | [] => []
  | [c] => [c]
  | a :: b :: rest =>
    if a = ' ' && b = ' ' then squeezeSp (b :: rest) else a :: squeezeSp (b :: rest)

/-- Embedding of `norm_txt` (app.py:78-83): NFKD+ASCII fold, lower-case,
collapse the separator class to single spaces, strip. -/
def norm_txt (s : Str) : Str :=
  let folded := (s.map foldAscii).flatten
  let lowered := folded.map Char.toLower
  pyStrip (squeezeSp (lowered.map (fun c => if isSepClass c then ' ' else c)))

/-- Boolean test that `needle` starts the string. -/
def startsWithStr : Str → Str → Bool
  | [], _ => true
  | _ :: _, [] => false
  | a :: as, b :: bs => a = b && startsWithStr as bs

/-- Boolean substring containment (Python `kw in s`). -/
def containsStr : Str → Str → Bool
  | hay, needle =>
    startsWithStr needle hay ||
      match hay with
      | [] => false
      | _ :: t => containsStr t needle

/-- Target CFOP set (app.py:248). -/
def CFOPS_ALVO : List Str :=
  ["2551".toList, "2556".toList, "2.551".toList, "2.556".toList]

/-- Hard exclusion list of adjustment codes (app.py:249). -/
def EXCLUDE_CODES : List Str := ["SP000299".toList]

/-- DIFAL keyword phrases (app.py:250-258). -/
def KEYWORDS_DIFAL : List Str :=
  ["difal".toList, "dif al".toList, "d i f a l".toList, "dif-aliq".toList,
   "dif.al".toList, "dif.aliq".toList, "dif. aliq".toList, "dif aliq".toList,
   "dif aliquota".toList, "dif.aliquota".toList,
   "dif de aliq".toList, "dif de aliquota".toList, "dif. de aliquota".toList,
   "diferencial".toList, "diferenca de aliquota".toList,
   "diferenca aliquota".toList, "diferenc. aliquota".toList,
   "uso e consumo".toList, "uso/consumo".toList, "uso consumo".toList,
   "material de uso".toList, "uso-consumo".toList,
   "imobilizado".toList, "ativo permanente".toList, "ativo imobilizado".toList,
   "fecp".toList, "f e c p".toList, "fundo combate pobreza".toList,
   "fundo estadual de combate a pobreza".toList]

/-- Helper building one whitelist pair. -/
def wlPair (reg cod : String) : Str × Str := (reg.toList, cod.toList)

/-- Per-state whitelist of DIFAL adjustment codes (app.py:259-270); the lookup
`DIFAL_CODES_UF.get(uf, set())` is modelled by the catch-all empty branch. -/
def DIFAL_CODES_UF (uf : Str) : List (Str × Str) :=
  if uf = "PR".toList then [wlPair "ANY" "PR000081"]
  else if uf = "SP".toList then
    [wlPair "E111" "SP000207", wlPair "C197" "SP40090207", wlPair "C197" "SP10090718"]
  else if uf = "SC".toList then
    [wlPair "C197" "SC40000002", wlPair "C197" "SC40000003", wlPair "ANY" "SC000007"]
  else if uf = "MS".toList then [wlPair "C197" "MS70000001"]
  else if uf = "MG".toList then [wlPair "C197" "MG70000001", wlPair "C197" "MG70010001"]
  else if uf = "GO".toList then
    [wlPair "C197" "GO40000029", wlPair "C197" "GO020081", wlPair "C197" "GO020082",
     wlPair "C197" "GO050010", wlPair "C197" "GO050011"]
  else if uf = "MT".toList then [wlPair "C197" "MT70000001", wlPair "C197" "MT70000002"]
  else if uf = "RJ".toList then
    [wlPair "C197" "RJ70000001", wlPair "C197" "RJ70000002", wlPair "C197" "RJ70000003",
     wlPair "C197" "RJ70000006"]
  else []

/-- Embedding of `eh_cfop_alvo` (app.py:272-276). -/
def eh_cfop_alvo (cfop : Str) : Bool :=
  if cfop = [] then false
  else
    let cf := pyStrip cfop
    decide (cf ∈ CFOPS_ALVO) ||
      decide (cf.filter (fun c => c ≠ '.') ∈ ["2551".toList, "2556".toList])

/-- Embedding of `eh_codigo_difal_por_whitelist` (app.py:278-283). -/
def eh_codigo_difal_por_whitelist (uf registro cod : Str) : Bool :=
  let cod := pyUpper (pyStrip cod)
  if cod = [] || decide (cod ∈ EXCLUDE_CODES) then false
  else
    decide (("ANY".toList, cod) ∈ DIFAL_CODES_UF (pyUpper uf)) ||
      decide ((pyUpper registro, cod) ∈ DIFAL_CODES_UF (pyUpper uf))

/-- Embedding of `eh_desc_difal` (app.py:285-289). -/
def eh_desc_difal (descr : Str) : Bool :=
  let s := norm_txt descr
  if s = [] then false
  else KEYWORDS_DIFAL.any (fun kw => containsStr s kw)

/-- Embedding of `eh_ajuste_difal` (app.py:291-296). -/
def eh_ajuste_difal (uf registro cod descr : Str) : Bool :=
  if decide (pyUpper (pyStrip cod) ∈ EXCLUDE_CODES) then false
  else if eh_codigo_difal_por_whitelist uf registro cod then true
  else eh_desc_difal descr

/-- Record holding the result of `extrair_competencia_0000`
(period, company name, tax id, state code). -/
structure Header0000 where
  comp : Str
  razao : Str
  cnpj : Str
  uf : Str
deriving DecidableEq, Repr

/-- Test of app.py:92: the tokenized line has a second field equal to `0000`. -/
def isHeader0000 (l : Str) : Bool :=
  let parts := (splitPipe (pyStrip l)).map pyStrip
  decide (parts.length > 1) && decide (parts.getD 1 [] = "0000".toList)

/-- Field extraction from the header line (app.py:93-102): the period comes
from the 8-digit start date `DDMMYYYY` as `MM/YYYY`, remaining fields default
to the empty string when absent. -/
def headerFrom (l : Str) : Header0000 :=
  let parts := (splitPipe (pyStrip l)).map pyStrip
  let dt := parts.getD 4 []
  { comp :=
      if dt ≠ [] ∧ dt.length = 8 then
        (dt.drop 2).take 2 ++ '/' :: (dt.drop 4).take 4
      else []
    razao := pyStrip (parts.getD 6 [])
    cnpj := pyStrip (parts.getD 7 [])
    uf := pyUpper (pyStrip (parts.getD 9 [])) }

/-- Fueled scan of the opening lines; the source enumerates the lines and
breaks past index 80, which is the same as a budget of 81 lines. -/
def extrairGo : Nat → List Str → Header0000
  | 0, _ => ⟨[], [], [], []⟩
  | _ + 1, [] => ⟨[], [], [], []⟩
  | n + 1, l :: ls => if isHeader0000 l then headerFrom l else extrairGo n ls

/-- Embedding of `extrair_competencia_0000` (app.py:85-104). -/
def extrair_competencia_0000 (lines : List Str) : Header0000 :=
  extrairGo 81 lines

/-- Modelled from the claim's words for C6 (refinement comparison): the first
record among the opening 81 lines whose type code is `0000` supplies the
fields; the period is the 8-digit start date read as DDMMYYYY and formatted
`MM/YYYY` (month = characters 2-4, year = characters 4-8); absent fields
default to the empty string, and with no derivable period the period is the
empty string. -/
def extrairSpec (lines : List Str) : Header0000 :=
  match (lines.take 81).find? isHeader0000 with
  | some l =>
    let parts := (splitPipe (pyStrip l)).map pyStrip
    let dt := parts.getD 4 []
    { comp :=
        if dt.length = 8 then (dt.drop 2).take 2 ++ '/' :: (dt.drop 4).take 4
        else []
      razao := pyStrip (parts.getD 6 [])
      cnpj := pyStrip (parts.getD 7 [])
      uf := pyUpper (pyStrip (parts.getD 9 [])) }
  | none => ⟨[], [], [], []⟩

/-- Modelled from the claim's words for C3 (refinement comparison): exclusion
list first, then raw whitelist membership under the given record type or the
wildcard, then the keyword heuristic on the description. -/
def difalClassifierSpec (uf registro cod descr : Str) : Bool :=
  let c := pyUpper (pyStrip cod)
  if decide (c ∈ EXCLUDE_CODES) then false
  else if decide (("ANY".toList, c) ∈ DIFAL_CODES_UF (pyUpper uf)) ||
      decide ((pyUpper registro, c) ∈ DIFAL_CODES_UF (pyUpper uf)) then true
  else eh_desc_difal descr

/-- Line item of a document (one `C170` line, app.py:323-336). -/
structure Item where
  desc : Str
  cfop : Str
  vl_item : ℚ
deriving DecidableEq, Repr

/-- Reconstructed document (one `C100` line and its items, app.py:316-321). -/
structure Doc where
  serie : Str
  numero : Str
  chave : Str
  itens : List Item
deriving DecidableEq, Repr

/-- Collected `C197` adjustment (app.py:343-352). -/
structure AjC197 where
  cod : Str
  descr : Str
  vl : ℚ
  did : Str
deriving DecidableEq, Repr

/-- Collected period-level adjustment (`E111`/`E115`, and classified `E116`). -/
structure AjE where
  cod : Str
  descr : Str
  vl : ℚ
deriving DecidableEq, Repr

/-- Collected raw `E116` adjustment (app.py:366-372): first component is
`cod_or or cod_rec`, last is `cod_rec`. -/
structure AjE116 where
  cod : Str
  descr : Str
  vl : ℚ
  codRec : Str
deriving DecidableEq, Repr

/-- Streaming state of the `auditoria_difal_text` main loop (app.py:301-306). -/
structure AudState where
  docs : List Doc
  current : Option Doc
  obs : List (Str × List Str)
  c197 : List AjC197
  e111 : List AjE
  e115 : List AjE
  e116 : List AjE116
deriving DecidableEq, Repr

/-- Document identity `serie|numero|chave` (app.py:307). -/
def docIdOf (d : Doc) : Str := d.serie ++ '|' :: d.numero ++ '|' :: d.chave

/-- Insertion-ordered multimap append, the behaviour of
`defaultdict(list)[k].append(v)`. -/
def addToKey {α : Type} : List (Str × List α) → Str → α → List (Str × List α)
  | [], k, v => [(k, [v])]
  | (k', vs) :: rest, k, v =>
    if k' = k then (k', vs ++ [v]) :: rest else (k', vs) :: addToKey rest k v

/-- Lookup in the multimap with default `[]` (the behaviour of `.get(k)` with
falsy default). -/
def alookup {α : Type} : List (Str × List α) → Str → List α
  | [], _ => []
  | (k', vs) :: rest, k => if k' = k then vs else alookup rest k

/-- Full match of the CFOP regex `\d{4}|\d\.\d{3}` (app.py:329). -/
def isCfopShape : Str → Bool
  | [a, b, c, d] => a.isDigit && b.isDigit && c.isDigit && d.isDigit
  | [a, p, b, c, d] => a.isDigit && p = '.' && b.isDigit && c.isDigit && d.isDigit
  | _ => false

/-- CFOP of a `C170` line: first field among indices 11,10,12,13,9 whose
stripped value is nonempty and matches the CFOP shape (app.py:325-330). -/
def c170Cfop (parts : List Str) : Str :=
  match [11, 10, 12, 13, 9].filterMap (fun idx =>
      let cand := pyStrip (parts.getD idx [])
      if cand ≠ [] ∧ isCfopShape cand then some cand else none) with
  | c :: _ => c
  | [] => []

/-- Item value of a `C170` line: first strictly positive parse among indices
7,20,12,24,25,5,6 with a nonempty stripped field (app.py:331-335). -/
def c170Vl (parts : List Str) : ℚ :=
  match [7, 20, 12, 24, 25, 5, 6].filterMap (fun idx =>
      let rawf := parts.getD idx []
      if pyStrip rawf ≠ [] ∧ 0 < parse_float_br rawf
      then some (parse_float_br rawf) else none) with
  | v :: _ => v
  | [] => 0

/-- Last strictly positive numeric parse among the given fields, default 0
(the `C197` value convention, app.py:346-350). -/
def lastPosVal (ps : List Str) : ℚ :=
  match (ps.filterMap (fun p =>
      let v := parse_float_br p
      if 0 < v then some v else none)).getLast? with
  | some v => v
  | none => 0

/-- One step of the `auditoria_difal_text` streaming loop (app.py:309-372). -/
def audStep (st : AudState) (raw : Str) : AudState :=
  let line := pyStrip raw
  if line = [] ∨ '|' ∉ line then st
  else
    let parts := splitPipe line
    let rty := parts.getD 1 []
    if rty = "C100".toList then
      { st with
        docs := st.docs ++ st.current.toList
        current := some { serie := parts.getD 7 [], numero := parts.getD 8 [],
                          chave := parts.getD 9 [], itens := [] } }
    else if rty = "C170".toList then
      match st.current with
      | some d =>
        { st with current := some { d with itens := d.itens ++
            [{ desc := parts.getD 4 [], cfop := c170Cfop parts, vl_item := c170Vl parts }] } }
      | none => st
    else if rty = "C195".toList then
      let txt := parts.getD 3 []
      match st.current with
      | some d => if txt ≠ [] then { st with obs := addToKey st.obs (docIdOf d) txt } else st
      | none => st
    else if rty = "C197".toList then
      let did := match st.current with | some d => docIdOf d | none => []
      { st with c197 := st.c197 ++
          [⟨pyUpper (pyStrip (parts.getD 2 [])), pyStrip (parts.getD 3 []),
            lastPosVal (parts.drop 2), did⟩] }
    else if rty = "E111".toList then
      { st with e111 := st.e111 ++
          [⟨pyUpper (pyStrip (parts.getD 2 [])), pyStrip (parts.getD 3 []),
            parse_float_br (parts.getD 4 "0".toList)⟩] }
    else if rty = "E115".toList then
      { st with e115 := st.e115 ++
          [⟨pyUpper (pyStrip (parts.getD 2 [])), pyStrip (parts.getD 4 []),
            parse_float_br (parts.getD 3 "0".toList)⟩] }
    else if rty = "E116".toList then
      let codOr := pyUpper (pyStrip (parts.getD 2 []))
      let codRec := pyUpper (pyStrip (parts.getD 5 []))
      let txt := pyStrip (parts.getD 9 [])
      { st with e116 := st.e116 ++
          [⟨(if codOr ≠ [] then codOr else codRec),
            pyStrip (codOr ++ ' ' :: codRec ++ ' ' :: txt),
            parse_float_br (parts.getD 3 "0".toList), codRec⟩] }
    else st

/-- Initial streaming state. -/
def audInit : AudState := ⟨[], none, [], [], [], [], []⟩

/-- Full scan of the input lines. -/
def audScan (lines : List Str) : AudState := lines.foldl audStep audInit

/-- Finalized documents: the accumulated list plus the still-open document at
end of stream (app.py:374). -/
def docsOf (lines : List Str) : List Doc :=
  (audScan lines).docs ++ (audScan lines).current.toList

/-- Document flag `tem_cfop_alvo` (app.py:375-376). -/
def temCfopAlvo (d : Doc) : Bool := d.itens.any (fun it => eh_cfop_alvo it.cfop)

/-- State code taken from the header (app.py:299). -/
def ufOf (lines : List Str) : Str := (extrair_competencia_0000 lines).uf

/-- Classifier-accepted `E111` adjustments (app.py:378). -/
def ajustes_e111_validos (lines : List Str) : List AjE :=
  (audScan lines).e111.filter (fun a => eh_ajuste_difal (ufOf lines) "E111".toList a.cod a.descr)

/-- Classifier-accepted `E115` adjustments (app.py:379). -/
def ajustes_e115_validos (lines : List Str) : List AjE :=
  (audScan lines).e115.filter (fun a => eh_ajuste_difal (ufOf lines) "E115".toList a.cod a.descr)

/-- Classifier-accepted `E116` adjustments, classified and stored under
`cod_rec or cod` (app.py:381-384). -/
def ajustes_e116_validos (lines : List Str) : List AjE :=
  (audScan lines).e116.filterMap (fun a =>
    if eh_ajuste_difal (ufOf lines) "E116".toList
        (if a.codRec ≠ [] then a.codRec else a.cod) a.descr
    then some ⟨(if a.codRec ≠ [] then a.codRec else a.cod), a.descr, a.vl⟩ else none)

/-- Classifier-accepted `C197` adjustments (app.py:386). -/
def ajustes_c197_validos (lines : List Str) : List AjC197 :=
  (audScan lines).c197.filter (fun a => eh_ajuste_difal (ufOf lines) "C197".toList a.cod a.descr)

/-- One evidence entry of the correlation engine: source record type, code,
description, value. -/
structure Evid where
  reg : Str
  cod : Str
  descr : Str
  vl : ℚ
deriving DecidableEq, Repr

/-- Synthetic description of the `C195` pseudo-adjustment (app.py:394). -/
def obsDifalMsg : Str := "Obs C195 com menção a DIFAL/FECP".toList

/-- Per-document evidenced adjustments (app.py:388-394): accepted `C197`
entries keyed by their document identity when nonempty, then a synthetic
`C195` pseudo-adjustment for each document whose observations mention DIFAL. -/
def ajustes_doc_validos (lines : List Str) : List (Str × List Evid) :=
  let m1 := (ajustes_c197_validos lines).foldl
    (fun m a => if a.did ≠ [] then addToKey m a.did ⟨"C197".toList, a.cod, a.descr, a.vl⟩ else m)
    []
  ((audScan lines).obs).foldl
    (fun m pr => if pr.2.any eh_desc_difal then addToKey m pr.1 ⟨"C195".toList, [], obsDifalMsg, 0⟩ else m)
    m1

/-- Documents carrying at least one target-CFOP item (app.py:396). -/
def docs_alvo (lines : List Str) : List Doc := (docsOf lines).filter temCfopAlvo

/-- Period-level evidence pool (app.py:400-403). -/
def evid_periodo (lines : List Str) : List Evid :=
  (ajustes_e111_validos lines).map (fun a => ⟨"E111".toList, a.cod, a.descr, a.vl⟩)
    ++ (ajustes_e115_validos lines).map (fun a => ⟨"E115".toList, a.cod, a.descr, a.vl⟩)
    ++ (ajustes_e116_validos lines).map (fun a => ⟨"E116".toList, a.cod, a.descr, a.vl⟩)

/-- Lexicographic order on strings by code point (Python string order). -/
def strLe : Str → Str → Bool
  | [], _ => true
  | _ :: _, [] => false
  | a :: as, b :: bs => if a = b then strLe as bs else decide (a < b)

/-- Insertion into a sorted list. -/
def insSorted (x : Str) : List Str → List Str
  | [] => [x]
  | y :: ys => if strLe x y then x :: y :: ys else y :: insSorted x ys

/-- Model of Python `sorted(set(l))` for strings. -/
def pySortedSet (l : List Str) : List Str := l.dedup.foldr insSorted []

/-- Sorted distinct numbers of the target documents (app.py:397). -/
def numeros_nfs_alvo (lines : List Str) : List Str :=
  pySortedSet ((docs_alvo lines).filterMap (fun d => if d.numero ≠ [] then some d.numero else none))

/-- Sorted distinct codes of accepted `C197` adjustments (app.py:405). -/
def codigos_c197 (lines : List Str) : List Str :=
  pySortedSet ((ajustes_c197_validos lines).map (fun a => a.cod))

/-- Sorted distinct codes of accepted `E111` adjustments (app.py:406). -/
def codigos_e111 (lines : List Str) : List Str :=
  pySortedSet ((ajustes_e111_validos lines).map (fun a => a.cod))

/-- Sorted distinct codes of accepted `E115` adjustments (app.py:407). -/
def codigos_e115 (lines : List Str) : List Str :=
  pySortedSet ((ajustes_e115_validos lines).map (fun a => a.cod))

/-- Sorted distinct codes of accepted `E116` adjustments (app.py:408). -/
def codigos_e116 (lines : List Str) : List Str :=
  pySortedSet ((ajustes_e116_validos lines).map (fun a => a.cod))

/-- All evidenced codes (app.py:409). -/
def codigos_usados (lines : List Str) : List Str :=
  pySortedSet (codigos_c197 lines ++ codigos_e111 lines ++ codigos_e115 lines ++ codigos_e116 lines)

/-- Whitelist conformity flag (app.py:411-417). -/
def conformidade_whitelist (lines : List Str) : Bool :=
  if codigos_usados lines = [] then false
  else
    (codigos_c197 lines).all (fun c => eh_codigo_difal_por_whitelist (ufOf lines) "C197".toList c) &&
    (codigos_e111 lines).all (fun c => eh_codigo_difal_por_whitelist (ufOf lines) "E111".toList c) &&
    (codigos_e115 lines).all (fun c => eh_codigo_difal_por_whitelist (ufOf lines) "E115".toList c) &&
    (codigos_e116 lines).all (fun c => eh_codigo_difal_por_whitelist (ufOf lines) "E116".toList c)

/-- File-level DIFAL adjustment flag (app.py:454). -/
def tem_ajuste_difal (lines : List Str) : Bool :=
  decide (ajustes_c197_validos lines ≠ []) || decide (evid_periodo lines ≠ [])

/-- Row of the analysis table (app.py:433-437). -/
structure AnaliseRow where
  serie : Str
  numero : Str
  chave : Str
  cfop : Str
  descItem : Str
  vlItem : ℚ
  regAj : Str
  codAj : Str
  vlAj : ℚ
  descrAj : Str
deriving DecidableEq, Repr

/-- Analysis row built from a document, an item and an evidence entry. -/
def mkAnaliseRow (d : Doc) (it : Item) (e : Evid) : AnaliseRow :=
  ⟨d.serie, d.numero, d.chave, it.cfop, it.desc, it.vl_item, e.reg, e.cod, e.vl, e.descr⟩

/-- Evidence entries joined to a document: its own evidence, else the
period-level fallback, else one placeholder (app.py:423-431). -/
def linhas_ajuste (lines : List Str) (did : Str) : List Evid :=
  if alookup (ajustes_doc_validos lines) did ≠ [] then alookup (ajustes_doc_validos lines) did
  else if evid_periodo lines ≠ [] then evid_periodo lines
  else [⟨[], [], [], 0⟩]

/-- Analysis table (app.py:419-437). -/
def analise_rows (lines : List Str) : List AnaliseRow :=
  (docs_alvo lines).flatMap (fun d =>
    (d.itens.filter (fun it => eh_cfop_alvo it.cfop)).flatMap (fun it =>
      (linhas_ajuste lines (docIdOf d)).map (mkAnaliseRow d it)))

/-- Row of the unevidenced-items table (app.py:445-450). -/
structure SemRow where
  serie : Str
  numero : Str
  chave : Str
  cfop : Str
  descItem : Str
  vlItem : ℚ
  obs : Str
deriving DecidableEq, Repr

/-- Fixed observation message of the unevidenced table (app.py:449). -/
def semObsMsg : Str :=
  "Item com CFOP 2551/2556 sem evidência de DIFAL (C197/C195/E111/E115/E116)".toList

/-- Unevidenced row built from a document and an item. -/
def mkSemRow (d : Doc) (it : Item) : SemRow :=
  ⟨d.serie, d.numero, d.chave, it.cfop, it.desc, it.vl_item, semObsMsg⟩

/-- Unevidenced-items table (app.py:439-450). -/
def sem_rows (lines : List Str) : List SemRow :=
  (docs_alvo lines).flatMap (fun d =>
    if alookup (ajustes_doc_validos lines) (docIdOf d) = [] ∧ evid_periodo lines = [] then
      (d.itens.filter (fun it => eh_cfop_alvo it.cfop)).map (mkSemRow d)
    else [])

/-- Join a list of strings with a separator (Python `sep.join`). -/
def joinWith (sep : Str) : List Str → Str
  | [] => []
  | [x] => x
  | x :: y :: rest => x ++ sep ++ joinWith sep (y :: rest)

/-- Checklist row (app.py:473-478).  The `codigosDescricoes` field keeps the
structured entries behind the string rendered at app.py:456-464 (the
`COD (REG) - VL ... - DESCR` formatting is presentational). -/
structure CheckRow where
  possuiNotas : Str
  notasNums : Str
  temAjuste : Str
  codigosDescricoes : List Evid
  conformeLeg : Str
deriving DecidableEq, Repr

/-- Structured content of `codigos_descricoes` (app.py:456-464). -/
def codigos_descricoes (lines : List Str) : List Evid :=
  (ajustes_c197_validos lines).map (fun a => ⟨"C197".toList, a.cod, a.descr, a.vl⟩)
    ++ (ajustes_e111_validos lines).map (fun a => ⟨"E111".toList, a.cod, a.descr, a.vl⟩)
    ++ (ajustes_e115_validos lines).map (fun a => ⟨"E115".toList, a.cod, a.descr, a.vl⟩)
    ++ (ajustes_e116_validos lines).map (fun a => ⟨"E116".toList, a.cod, a.descr, a.vl⟩)

/-- Compliance verdict string (app.py:466-471). -/
def conforme_leg (lines : List Str) : Str :=
  if tem_ajuste_difal lines = true ∧ conformidade_whitelist lines = true then
    "Sim (whitelist UF)".toList
  else if tem_ajuste_difal lines = true ∧ conformidade_whitelist lines = false ∧
      codigos_usados lines ≠ [] then
    "Parcial/Não (códigos fora da whitelist)".toList
  else "Não se aplica / Ausente".toList

/-- Checklist table (app.py:473-478). -/
def check_rows (lines : List Str) : List CheckRow :=
  [⟨(if numeros_nfs_alvo lines ≠ [] then "Sim".toList else "Não".toList),
    joinWith ", ".toList (numeros_nfs_alvo lines),
    (if tem_ajuste_difal lines = true then "Sim".toList else "Não".toList),
    codigos_descricoes lines,
    conforme_leg lines⟩]

/-- Row of the summary table (app.py:489-493). -/
structure ResumoRow where
  status : Str
  notasNums : Str
  codigosAjuste : Str
deriving DecidableEq, Repr

/-- Summary status string (app.py:480-487). -/
def status_difal (lines : List Str) : Str :=
  if numeros_nfs_alvo lines = [] ∧ tem_ajuste_difal lines = false then
    "Não se aplica DIFAL".toList
  else if numeros_nfs_alvo lines ≠ [] ∧ tem_ajuste_difal lines = false then
    "DIFAL não apurado (há 2551/2556 sem evidência)".toList
  else if numeros_nfs_alvo lines ≠ [] ∧ tem_ajuste_difal lines = true then
    "DIFAL OK".toList
  else "Ajuste presente sem NF 2551/2556 (verificar coerência)".toList

/-- Summary table (app.py:489-493). -/
def resumo_rows (lines : List Str) : List ResumoRow :=
  [⟨status_difal lines, joinWith ", ".toList (numeros_nfs_alvo lines),
    joinWith ", ".toList (codigos_usados lines)⟩]

/-- Embedding of `auditoria_difal_text` (app.py:298-499): the four result
tables (analysis, unevidenced, checklist, summary). -/
def auditoria_difal_text (lines : List Str) :
    List AnaliseRow × List SemRow × List CheckRow × List ResumoRow :=
  (analise_rows lines, sem_rows lines, check_rows lines, resumo_rows lines)

/-- Collected `C195` row of `coletar_ajustes` (app.py:197-201). -/
structure ColC195 where
  serie : Str
  numero : Str
  chave : Str
  codObs : Str
  txt : Str
deriving DecidableEq, Repr

/-- Collected `C197` row of `coletar_ajustes` (app.py:203-212). -/
structure ColC197 where
  serie : Str
  numero : Str
  chave : Str
  codAj : Str
  descr : Str
  valor : ℚ
deriving DecidableEq, Repr

/-- Collected `E111` row of `coletar_ajustes` (app.py:214-218). -/
structure ColE111 where
  codAjApur : Str
  descr : Str
  valor : ℚ
deriving DecidableEq, Repr

/-- Collected `E115` row of `coletar_ajustes` (app.py:220-224). -/
structure ColE115 where
  codInfAdic : Str
  valor : ℚ
  descr : Str
deriving DecidableEq, Repr

/-- Collected `E116` row of `coletar_ajustes` (app.py:226-236). -/
structure ColE116 where
  codOr : Str
  valor : ℚ
  dtVcto : Str
  codRec : Str
  numProc : Str
  indProc : Str
  proc : Str
  txt : Str
deriving DecidableEq, Repr

/-- Streaming state of `coletar_ajustes` (app.py:180-182). -/
structure ColState where
  curSerie : Str
  curNumero : Str
  curChave : Str
  c195 : List ColC195
  c197 : List ColC197
  e111 : List ColE111
  e115 : List ColE115
  e116 : List ColE116
deriving DecidableEq, Repr

/-- Initial state of `coletar_ajustes` (app.py:182). -/
def colInit : ColState := ⟨[], [], [], [], [], [], [], []⟩

/-- One step of the `coletar_ajustes` loop (app.py:184-236). -/
def coletarStep (st : ColState) (line : Str) : ColState :=
  let parts := (splitPipe line).map pyStrip
  if parts.length < 2 then st
  else
    let rty := parts.getD 1 []
    if rty = "C100".toList then
      { st with curSerie := parts.getD 7 [], curNumero := parts.getD 8 [],
                curChave := parts.getD 9 [] }
    else if rty = "C195".toList then
      { st with c195 := st.c195 ++
          [⟨st.curSerie, st.curNumero, st.curChave, parts.getD 2 [], parts.getD 3 []⟩] }
    else if rty = "C197".toList then
      { st with c197 := st.c197 ++
          [⟨st.curSerie, st.curNumero, st.curChave, parts.getD 2 [], parts.getD 3 [],
            lastPosVal (parts.drop 2)⟩] }
    else if rty = "E111".toList then
      { st with e111 := st.e111 ++
          [⟨parts.getD 2 [], parts.getD 3 [], parse_float_br (parts.getD 4 "0".toList)⟩] }
    else if rty = "E115".toList then
      { st with e115 := st.e115 ++
          [⟨parts.getD 2 [], parse_float_br (parts.getD 3 "0".toList), parts.getD 4 []⟩] }
    else if rty = "E116".toList then
      { st with e116 := st.e116 ++
          [⟨parts.getD 2 [], parse_float_br (parts.getD 3 "0".toList), parts.getD 4 [],
            parts.getD 5 [], parts.getD 6 [], parts.getD 7 [], parts.getD 8 [],
            parts.getD 9 []⟩] }
    else st

/-- Identity triple of a document. -/
def identOf (d : Doc) : Str × Str × Str := (d.serie, d.numero, d.chave)

/-- Lines that the `auditoria_difal_text` loop dispatches as `C100`. -/
def isC100Line (raw : Str) : Bool :=
  let line := pyStrip raw
  decide (line ≠ []) && decide ('|' ∈ line) &&
    decide ((splitPipe line).getD 1 [] = "C100".toList)

/-- Identity triple read off a `C100` line (fields 7, 8, 9). -/
def c100IdentOf (raw : Str) : Str × Str × Str :=
  let parts := splitPipe (pyStrip raw)
  (parts.getD 7 [], parts.getD 8 [], parts.getD 9 [])

/-- Lines that the `auditoria_difal_text` loop dispatches as `C197`. -/
def isC197Line (raw : Str) : Bool :=
  let line := pyStrip raw
  decide (line ≠ []) && decide ('|' ∈ line) &&
    decide ((splitPipe line).getD 1 [] = "C197".toList)

/-- Code stored for a `C197` line (field 2, stripped and upper-cased). -/
def c197CodOf (raw : Str) : Str :=
  pyUpper (pyStrip ((splitPipe (pyStrip raw)).getD 2 []))

/-- Description stored for a `C197` line (field 3, stripped). -/
def c197DescrOf (raw : Str) : Str :=
  pyStrip ((splitPipe (pyStrip raw)).getD 3 [])

/-- Spec-side predicate: the file carries at least one adjustment record that
the DIFAL classifier accepts — a document-level `C197` or a period-level
`E111`/`E115`/`E116` (the latter classified under `cod_rec or cod`). -/
def hasAcceptedAdjustment (lines : List Str) : Prop :=
  (∃ a ∈ (audScan lines).c197,
      eh_ajuste_difal (ufOf lines) "C197".toList a.cod a.descr = true) ∨
  (∃ a ∈ (audScan lines).e111,
      eh_ajuste_difal (ufOf lines) "E111".toList a.cod a.descr = true) ∨
  (∃ a ∈ (audScan lines).e115,
      eh_ajuste_difal (ufOf lines) "E115".toList a.cod a.descr = true) ∨
  (∃ a ∈ (audScan lines).e116,
      eh_ajuste_difal (ufOf lines) "E116".toList
        (if a.codRec ≠ [] then a.codRec else a.cod) a.descr = true)

instance hasAcceptedAdjustmentDec (lines : List Str) :
    Decidable (hasAcceptedAdjustment lines) := by
  unfold hasAcceptedAdjustment
  infer_instance

/-- Spec-side predicate: some finalized document has a target-CFOP item and a
non-empty document number. -/
def hasTargetDocWithNumero (lines : List Str) : Prop :=
  ∃ d ∈ docsOf lines, temCfopAlvo d = true ∧ d.numero ≠ []

instance hasTargetDocWithNumeroDec (lines : List Str) :
    Decidable (hasTargetDocWithNumero lines) := by
  unfold hasTargetDocWithNumero
  infer_instance

/-- Spec-side predicate: every evidenced adjustment code is covered by the
state's whitelist for its record type (or the wildcard). -/
def allEvidCodesWhitelisted (lines : List Str) : Prop :=
  (∀ a ∈ ajustes_c197_validos lines,
      eh_codigo_difal_por_whitelist (ufOf lines) "C197".toList a.cod = true) ∧
  (∀ a ∈ ajustes_e111_validos lines,
      eh_codigo_difal_por_whitelist (ufOf lines) "E111".toList a.cod = true) ∧
  (∀ a ∈ ajustes_e115_validos lines,
      eh_codigo_difal_por_whitelist (ufOf lines) "E115".toList a.cod = true) ∧
  (∀ a ∈ ajustes_e116_validos lines,
      eh_codigo_difal_por_whitelist (ufOf lines) "E116".toList a.cod = true)

instance allEvidCodesWhitelistedDec (lines : List Str) :
    Decidable (allEvidCodesWhitelisted lines) := by
  unfold allEvidCodesWhitelisted
  infer_instance

example : parseFloatBrRep "1.234,56".toList = some (123456, -2) := by decide
example : parseFloatBrRep "1234.56".toList = some (123456, -2) := by decide
example : parseFloatBrRep "".toList = none := by decide
example : parseFloatBrRep "abc".toList = none := by decide
example : parse_float_br "1234.56".toList = 1234.56 := by
  have h : parseFloatBrRep "1234.56".toList = some (123456, -2) := by decide
  unfold parse_float_br
  rw [h]
  have h2 : Int.toNat 2 = 2 := rfl
  norm_num [ratOfRep, Rat.mkRat_eq_div, h2]
example : eh_cfop_alvo "2.551".toList = true := by decide
example : eh_cfop_alvo "2552".toList = false := by decide
example : eh_desc_difal "Diferencial de alíquota".toList = true := by decide
example : eh_ajuste_difal "SP".toList "C197".toList "SP000299".toList "difal".toList = false := by decide
example : eh_ajuste_difal "SP".toList "E111".toList "sp000207".toList "x".toList = true := by decide
example : extrair_competencia_0000 ["|0000|LAYOUT|0|01052024|31052024|EMPRESA X|123|x|SP".toList] =
    ⟨"05/2024".toList, "EMPRESA X".toList, "123".toList, "SP".toList⟩ := by decide

theorem parse_float_br_of_rep (x : Str) (p : Int × Int)
    (h : parseFloatBrRep x = some p) : parse_float_br x = ratOfRep p := by
  unfold parse_float_br; rw [h]

theorem parse_float_br_of_none (x : Str)
    (h : parseFloatBrRep x = none) : parse_float_br x = 0 := by
  unfold parse_float_br; rw [h]

/-- C7: numeric normalization is total (by construction `parse_float_br` is a
total Lean function into ℚ, mirroring the source's catch-all exception
handlers) and maps `"1.234,56"` to 1234.56, `"1234.56"` to 1234.56, the empty
string to 0 and `"abc"` to 0. -/
theorem claim_C7_parse_float_br_total :
    parse_float_br "1.234,56".toList = 1234.56 ∧
    parse_float_br "1234.56".toList = 1234.56 ∧
    parse_float_br "".toList = 0 ∧
    parse_float_br "abc".toList = 0 := by
  have h2 : Int.toNat 2 = 2 := rfl
  refine ⟨?_, ?_, ?_, ?_⟩
  · rw [parse_float_br_of_rep _ (123456, -2) (by decide)]
    norm_num [ratOfRep, Rat.mkRat_eq_div, h2]
  · rw [parse_float_br_of_rep _ (123456, -2) (by decide)]
    norm_num [ratOfRep, Rat.mkRat_eq_div, h2]
  · exact parse_float_br_of_none _ (by decide)
  · exact parse_float_br_of_none _ (by decide)

theorem dropWhile_no_space (t : Str) (h : ∀ c ∈ t, isPySpace c = false) :
    t.dropWhile isPySpace = t := by
  cases t with
  | nil => rfl
  | cons c cs => simp [List.dropWhile_cons, h c (by simp)]

theorem pyStrip_no_space (s : Str) (h : ∀ c ∈ s, isPySpace c = false) :
    pyStrip s = s := by
  unfold pyStrip
  rw [dropWhile_no_space s h]
  rw [dropWhile_no_space s.reverse (by intro c hc; exact h c (List.mem_reverse.mp hc))]
  exact List.reverse_reverse s

/-- C8 counterexample: removing the dot from the CFOP string `". 2551"`
changes its classification from non-target to target, so dot formatting does
not in general preserve the classification. -/
theorem claim_C8_counterexample :
    eh_cfop_alvo ". 2551".toList = false ∧
    (". 2551".toList.filter (fun c => c ≠ '.')) = " 2551".toList ∧
    eh_cfop_alvo " 2551".toList = true := by decide

/-- C8 (amended): `"2551"`/`"2.551"` and `"2556"`/`"2.556"` are target CFOPs,
`"2552"` is not, and for every CFOP string free of whitespace, removing the
dots never changes the classification. -/
theorem claim_C8_cfop_dot_equivalence (s : Str)
    (h : ∀ c ∈ s, isPySpace c = false) :
    (eh_cfop_alvo "2551".toList = true ∧ eh_cfop_alvo "2.551".toList = true ∧
     eh_cfop_alvo "2556".toList = true ∧ eh_cfop_alvo "2.556".toList = true ∧
     eh_cfop_alvo "2552".toList = false) ∧
    eh_cfop_alvo (s.filter (fun c => c ≠ '.')) = eh_cfop_alvo s := by
  refine ⟨by decide, ?_⟩
  by_cases hs : s = []
  · subst hs; decide
  · obtain ⟨f, hf⟩ : ∃ f, s.filter (fun c => c ≠ '.') = f := ⟨_, rfl⟩
    rw [hf]
    have hstrip_s : pyStrip s = s := pyStrip_no_space s h
    have hstrip_f : pyStrip f = f := by
      refine pyStrip_no_space f ?_
      intro c hc
      rw [← hf] at hc
      exact h c (List.mem_filter.mp hc).1
    have hff : f.filter (fun c => c ≠ '.') = f := by
      refine List.filter_eq_self.mpr ?_
      intro a ha
      rw [← hf] at ha
      exact (List.mem_filter.mp ha).2
    have hdotf : ('.' : Char) ∉ f := by
      intro hmem
      rw [← hf] at hmem
      have := (List.mem_filter.mp hmem).2
      simp at this
    by_cases hfe : f = []
    · have hsC : s ∉ CFOPS_ALVO := by
        intro hmem
        simp only [CFOPS_ALVO, List.mem_cons, List.not_mem_nil, or_false] at hmem
        rcases hmem with rfl | rfl | rfl | rfl <;>
          exact absurd (hf.trans hfe) (by decide)
      have h1 : eh_cfop_alvo s = false := by
        simp only [eh_cfop_alvo, if_neg hs, hstrip_s, hf, hfe]
        simp [hsC]
      have h2 : eh_cfop_alvo f = false := by
        rw [hfe]; decide
      rw [h1, h2]
    · have hmemiff : f ∈ CFOPS_ALVO ↔ f ∈ ["2551".toList, "2556".toList] := by
        constructor
        · intro hmem
          simp only [CFOPS_ALVO, List.mem_cons, List.not_mem_nil, or_false] at hmem
          rcases hmem with rfl | rfl | rfl | rfl
          · decide
          · decide
          · exact absurd (by decide : ('.' : Char) ∈ "2.551".toList) hdotf
          · exact absurd (by decide : ('.' : Char) ∈ "2.556".toList) hdotf
        · intro hmem
          simp only [List.mem_cons, List.not_mem_nil, or_false] at hmem
          rcases hmem with rfl | rfl <;> decide
      have hsub : s ∈ CFOPS_ALVO → f ∈ ["2551".toList, "2556".toList] := by
        intro hmem
        simp only [CFOPS_ALVO, List.mem_cons, List.not_mem_nil, or_false] at hmem
        rcases hmem with rfl | rfl | rfl | rfl <;> (rw [← hf]; decide)
      have lhs_eq : eh_cfop_alvo f =
          decide (f ∈ ["2551".toList, "2556".toList]) := by
        simp only [eh_cfop_alvo, if_neg hfe, hstrip_f, hff]
        rcases Decidable.em (f ∈ ["2551".toList, "2556".toList]) with hb | hb
        · rw [decide_eq_true hb, decide_eq_true (hmemiff.mpr hb), Bool.true_or]
        · rw [decide_eq_false hb, decide_eq_false (fun hx => hb (hmemiff.mp hx)),
            Bool.false_or]
      have rhs_eq : eh_cfop_alvo s =
          decide (f ∈ ["2551".toList, "2556".toList]) := by
        simp only [eh_cfop_alvo, if_neg hs, hstrip_s, hf]
        rcases Decidable.em (f ∈ ["2551".toList, "2556".toList]) with hb | hb
        · rw [decide_eq_true hb, Bool.or_true]
        · rw [decide_eq_false hb, decide_eq_false (fun hx => hb (hsub hx)),
            Bool.false_or]
      rw [lhs_eq, rhs_eq]

/-- C8 amended-claim witness at a concrete whitespace-free input. -/
theorem claim_C8_cfop_dot_equivalence_witness :
    eh_cfop_alvo ("2.551".toList.filter (fun c => c ≠ '.')) = eh_cfop_alvo "2.551".toList := by
  exact (claim_C8_cfop_dot_equivalence "2.551".toList (by decide)).2

theorem whitelist_snd_ne_nil (uf : Str) :
    ∀ p ∈ DIFAL_CODES_UF uf, p.2 ≠ ([] : Str) := by
  unfold DIFAL_CODES_UF
  split_ifs <;> (intro p hp; fin_cases hp <;> decide)

/-- C3: the DIFAL classifier is the fixed rule chain of the claim: exclusion
always wins and forces false; otherwise whitelist membership of the code under
the record type or the wildcard forces true regardless of the description;
otherwise the keyword heuristic on the normalized description decides. -/
theorem claim_C3_classifier_rule_order (uf registro cod descr : Str) :
    eh_ajuste_difal uf registro cod descr = difalClassifierSpec uf registro cod descr := by
  unfold eh_ajuste_difal difalClassifierSpec eh_codigo_difal_por_whitelist
  by_cases hex : pyUpper (pyStrip cod) ∈ EXCLUDE_CODES
  · simp [hex]
  · by_cases hnil : pyUpper (pyStrip cod) = []
    · have hany : ("ANY".toList, pyUpper (pyStrip cod)) ∉ DIFAL_CODES_UF (pyUpper uf) := by
        intro hmem
        exact whitelist_snd_ne_nil (pyUpper uf) _ hmem hnil
      have hreg : (pyUpper registro, pyUpper (pyStrip cod)) ∉ DIFAL_CODES_UF (pyUpper uf) := by
        intro hmem
        exact whitelist_snd_ne_nil (pyUpper uf) _ hmem hnil
      rw [hnil] at hany hreg
      have hany' : ((['A', 'N', 'Y'] : Str), ([] : Str)) ∉ DIFAL_CODES_UF (pyUpper uf) := by
        intro hmem
        exact whitelist_snd_ne_nil (pyUpper uf) _ hmem rfl
      simp [hex, hnil, decide_eq_false hany', decide_eq_false hreg]
    · simp [hex, hnil]

/-- C6 counterexample: on an input with no derivable period the extractor
returns the empty string, not a non-empty sentinel such as
`"não identificada"` / `"not identified"`. -/
theorem claim_C6_counterexample :
    (extrair_competencia_0000 ["|C100|1|2".toList]).comp = [] ∧
    "não identificada".toList ≠ ([] : Str) ∧
    "not identified".toList ≠ ([] : Str) := by decide

theorem extrairGo_eq_find (n : Nat) (ls : List Str) :
    extrairGo n ls =
      match (ls.take n).find? isHeader0000 with
      | some l => headerFrom l
      | none => ⟨[], [], [], []⟩ := by
  induction n generalizing ls with
  | zero => simp [extrairGo]
  | succ m ih =>
    cases ls with
    | nil => simp [extrairGo]
    | cons l t =>
      by_cases hl : isHeader0000 l
      · simp [extrairGo, hl, List.find?]
      · simp only [extrairGo, if_neg hl, List.take_succ_cons, List.find?]
        rw [Bool.eq_false_iff.mpr hl]
        exact ih t

/-- C6 (amended): the header extractor stops at the first `0000` record among
the opening 81 lines, derives the period from the 8-digit DDMMYYYY start date
as `MM/YYYY` (month = characters 2-4, year = characters 4-8), defaults absent
fields to the empty string, and returns the empty string for an absent
period. -/
theorem claim_C6_header_extractor (lines : List Str) :
    extrair_competencia_0000 lines = extrairSpec lines := by
  unfold extrair_competencia_0000 extrairSpec
  rw [extrairGo_eq_find]
  cases hfind : (lines.take 81).find? isHeader0000 with
  | none => rfl
  | some l =>
    simp only [headerFrom]
    congr 1
    by_cases hlen :
        (((splitPipe (pyStrip l)).map pyStrip).getD 4 []).length = 8
    · have hne : ((splitPipe (pyStrip l)).map pyStrip).getD 4 [] ≠ [] := by
        intro hnil
        rw [hnil] at hlen
        simp at hlen
      rw [if_pos ⟨hne, hlen⟩, if_pos hlen]
    · rw [if_neg (fun hc => hlen hc.2), if_neg hlen]

theorem splitPipe_ne_nil (l : Str) : splitPipe l ≠ [] := by
  cases l with
  | nil => simp [splitPipe]
  | cons c cs => unfold splitPipe; split_ifs <;> simp

theorem not_pipe_of_splitPipe_short (l : Str) (h : (splitPipe l).length < 2) :
    '|' ∉ l := by
  induction l with
  | nil => simp
  | cons c cs ih =>
    intro hmem
    unfold splitPipe at h
    cases hsp : splitPipe cs with
    | nil => exact absurd hsp (splitPipe_ne_nil cs)
    | cons a as =>
      rw [hsp] at h
      by_cases hc : c = '|'
      · rw [if_pos hc] at h
        simp at h
        omega
      · rw [if_neg hc] at h
        simp at h
        rcases List.mem_cons.mp hmem with hceq | hcs
        · exact hc hceq.symm
        · have : (splitPipe cs).length < 2 := by rw [hsp]; simp; omega
          exact ih this hcs

theorem mem_of_mem_dropWhile (c : Char) (p : Char → Bool) (l : Str)
    (h : c ∈ l.dropWhile p) : c ∈ l := by
  induction l with
  | nil => simp at h
  | cons a t ih =>
    rw [List.dropWhile_cons] at h
    by_cases hp : p a
    · rw [if_pos hp] at h
      exact List.mem_cons_of_mem a (ih h)
    · rw [if_neg hp] at h
      exact h

theorem mem_of_mem_pyStrip (c : Char) (s : Str) (h : c ∈ pyStrip s) : c ∈ s := by
  unfold pyStrip at h
  rw [List.mem_reverse] at h
  have h2 := mem_of_mem_dropWhile c isPySpace _ h
  rw [List.mem_reverse] at h2
  exact mem_of_mem_dropWhile c isPySpace _ h2

/-- C9: a line that splits into fewer than 2 pipe-delimited tokens leaves the
state of both streaming consumers (`coletar_ajustes` and the
`auditoria_difal_text` loop) unchanged: it contributes no row to any table and
raises nothing. -/
theorem claim_C9_short_lines_skipped (stc : ColState) (sta : AudState) (line : Str)
    (h : (splitPipe line).length < 2) :
    coletarStep stc line = stc ∧ audStep sta line = sta := by
  have hp : '|' ∉ line := not_pipe_of_splitPipe_short line h
  constructor
  · have hlen : ((splitPipe line).map pyStrip).length < 2 := by
      simpa using h
    simp only [coletarStep, if_pos hlen]
  · have hcond : pyStrip line = [] ∨ '|' ∉ pyStrip line :=
      Or.inr (fun hmem => hp (mem_of_mem_pyStrip '|' line hmem))
    simp only [audStep, if_pos hcond]

/-- C9 witness: the tokenizer behaviour on the concrete malformed line `abc`. -/
theorem claim_C9_short_lines_skipped_witness :
    (splitPipe "abc".toList).length < 2 ∧
    coletarStep colInit "abc".toList = colInit ∧
    audStep audInit "abc".toList = audInit := by
  refine ⟨by decide, ?_, ?_⟩
  · exact (claim_C9_short_lines_skipped colInit audInit "abc".toList (by decide)).1
  · exact (claim_C9_short_lines_skipped colInit audInit "abc".toList (by decide)).2

theorem audStep_c100 (st : AudState) (l : Str) (h : isC100Line l = true) :
    (audStep st l).docs = st.docs ++ st.current.toList ∧
    (audStep st l).current = some ⟨(splitPipe (pyStrip l)).getD 7 [],
      (splitPipe (pyStrip l)).getD 8 [], (splitPipe (pyStrip l)).getD 9 [], []⟩ := by
  unfold isC100Line at h
  simp only [Bool.and_eq_true, decide_eq_true_eq] at h
  obtain ⟨⟨hne, hpipe⟩, hrty⟩ := h
  have hg : ¬(pyStrip l = [] ∨ '|' ∉ pyStrip l) := by
    push_neg
    exact ⟨hne, hpipe⟩
  simp only [audStep]
  rw [if_neg hg, if_pos hrty]
  exact ⟨rfl, rfl⟩

theorem audStep_not_c100 (st : AudState) (l : Str) (h : isC100Line l = false) :
    (audStep st l).docs = st.docs ∧
    (audStep st l).current.map identOf = st.current.map identOf := by
  by_cases hg : pyStrip l = [] ∨ '|' ∉ pyStrip l
  · simp only [audStep]
    rw [if_pos hg]
    exact ⟨rfl, rfl⟩
  · have hrty : (splitPipe (pyStrip l)).getD 1 [] ≠ "C100".toList := by
      intro hc
      push_neg at hg
      have htrue : isC100Line l = true := by
        unfold isC100Line
        simp only [Bool.and_eq_true, decide_eq_true_eq]
        exact ⟨⟨hg.1, hg.2⟩, hc⟩
      rw [h] at htrue
      exact Bool.false_ne_true htrue
    simp only [audStep]
    rw [if_neg hg, if_neg hrty]
    cases hc : st.current with
    | none => split_ifs <;> simp [identOf, hc]
    | some d => split_ifs <;> simp [identOf, hc]

theorem toList_map_of_map_eq {α β : Type} (f : α → β) (o₁ o₂ : Option α)
    (h : o₁.map f = o₂.map f) : o₁.toList.map f = o₂.toList.map f := by
  cases o₁ <;> cases o₂ <;> simp_all

theorem aud_docs_fold (lines : List Str) : ∀ st : AudState,
    ((lines.foldl audStep st).docs ++ (lines.foldl audStep st).current.toList).map identOf
      = (st.docs ++ st.current.toList).map identOf
        ++ (lines.filter isC100Line).map c100IdentOf := by
  induction lines with
  | nil => intro st; simp
  | cons l t ih =>
    intro st
    rw [List.foldl_cons]
    by_cases hl : isC100Line l = true
    · rw [ih (audStep st l)]
      obtain ⟨hd, hc⟩ := audStep_c100 st l hl
      rw [hd, hc, List.filter_cons_of_pos hl]
      simp [List.map_append, List.append_assoc, identOf, c100IdentOf, List.getD]
    · rw [ih (audStep st l)]
      obtain ⟨hd, hc⟩ := audStep_not_c100 st l (Bool.eq_false_iff.mpr hl)
      rw [List.filter_cons_of_neg hl]
      rw [List.map_append, List.map_append, hd,
        toList_map_of_map_eq identOf _ _ hc]

/-- C10: the document reconstructor finalizes exactly one document per `C100`
record, in first-seen order, with its identity read off that record: the
identities of the finalized documents coincide, in order, with the identities
carried by the stream's `C100` lines. -/
theorem claim_C10_docs_finalized_once (lines : List Str) :
    (docsOf lines).map identOf = (lines.filter isC100Line).map c100IdentOf := by
  unfold docsOf audScan
  have h := aud_docs_fold lines audInit
  simpa [audInit] using h

theorem insSorted_ne_nil (x : Str) (l : List Str) : insSorted x l ≠ [] := by
  cases l with
  | nil => simp [insSorted]
  | cons y ys => unfold insSorted; split_ifs <;> simp

theorem pySortedSet_eq_nil_iff (l : List Str) : pySortedSet l = [] ↔ l = [] := by
  unfold pySortedSet
  constructor
  · intro h
    cases hd : l.dedup with
    | nil => exact (List.dedup_eq_nil l).mp hd
    | cons a as =>
      rw [hd, List.foldr_cons] at h
      exact absurd h (insSorted_ne_nil _ _)
  · intro h
    subst h
    rfl

theorem mem_insSorted (a x : Str) (l : List Str) :
    a ∈ insSorted x l ↔ a = x ∨ a ∈ l := by
  induction l with
  | nil => simp [insSorted]
  | cons y ys ih =>
    unfold insSorted
    split_ifs with hle
    · simp [List.mem_cons]
    · simp only [List.mem_cons, ih]
      tauto

theorem mem_foldr_insSorted (a : Str) (m : List Str) :
    a ∈ m.foldr insSorted [] ↔ a ∈ m := by
  induction m with
  | nil => simp
  | cons b bs ih => simp [List.foldr_cons, mem_insSorted, ih]

theorem mem_pySortedSet (a : Str) (l : List Str) : a ∈ pySortedSet l ↔ a ∈ l := by
  unfold pySortedSet
  rw [mem_foldr_insSorted, List.mem_dedup]

theorem filter_ne_nil_iff {α : Type} (p : α → Bool) (l : List α) :
    l.filter p ≠ [] ↔ ∃ a ∈ l, p a = true := by
  rw [Ne, List.filter_eq_nil_iff]
  push_neg
  simp

theorem numeros_ne_nil_iff (lines : List Str) :
    numeros_nfs_alvo lines ≠ [] ↔ hasTargetDocWithNumero lines := by
  unfold numeros_nfs_alvo hasTargetDocWithNumero
  rw [Ne, pySortedSet_eq_nil_iff, ← Ne, Ne, List.filterMap_eq_nil_iff]
  push_neg
  constructor
  · rintro ⟨d, hd, hne⟩
    rw [docs_alvo, List.mem_filter] at hd
    refine ⟨d, hd.1, hd.2, ?_⟩
    intro h0
    simp [h0] at hne
  · rintro ⟨d, hd, halvo, hnum⟩
    refine ⟨d, ?_, ?_⟩
    · rw [docs_alvo, List.mem_filter]
      exact ⟨hd, halvo⟩
    · simp [hnum]

theorem evid_periodo_ne_nil_iff (lines : List Str) :
    evid_periodo lines ≠ [] ↔
      ajustes_e111_validos lines ≠ [] ∨ ajustes_e115_validos lines ≠ [] ∨
      ajustes_e116_validos lines ≠ [] := by
  unfold evid_periodo
  simp only [Ne, List.append_eq_nil, List.map_eq_nil_iff]
  tauto

theorem tem_ajuste_iff (lines : List Str) :
    tem_ajuste_difal lines = true ↔ hasAcceptedAdjustment lines := by
  unfold tem_ajuste_difal hasAcceptedAdjustment
  rw [Bool.or_eq_true, decide_eq_true_eq, decide_eq_true_eq, evid_periodo_ne_nil_iff]
  rw [ajustes_c197_validos, ajustes_e111_validos, ajustes_e115_validos, ajustes_e116_validos]
  rw [filter_ne_nil_iff, filter_ne_nil_iff, filter_ne_nil_iff]
  rw [Ne, List.filterMap_eq_nil_iff]
  push_neg
  constructor
  · rintro (h | h | h | ⟨a, ha, hne⟩)
    · exact Or.inl h
    · exact Or.inr (Or.inl h)
    · exact Or.inr (Or.inr (Or.inl h))
    · refine Or.inr (Or.inr (Or.inr ⟨a, ha, ?_⟩))
      by_contra hfalse
      rw [Bool.not_eq_true] at hfalse
      rw [hfalse] at hne
      simp at hne
  · rintro (h | h | h | ⟨a, ha, hacc⟩)
    · exact Or.inl h
    · exact Or.inr (Or.inl h)
    · exact Or.inr (Or.inr (Or.inl h))
    · refine Or.inr (Or.inr (Or.inr ⟨a, ha, ?_⟩))
      rw [hacc]
      simp

/-- C1 counterexample: a file whose only document has a target-CFOP item but
an empty document number (its `C100` line is too short) and no adjustment at
all.  The claim's decision table demands the status `DIFAL não apurado (há
2551/2556 sem evidência)`, but the code keys the table on the non-empty
document numbers and reports `Não se aplica DIFAL`. -/
theorem claim_C1_counterexample :
    (∃ d ∈ docsOf ["|C100|".toList, "|C170|1|CODX|DESC|1|UN|0|0|0|0|2551|".toList],
        temCfopAlvo d = true) ∧
    ¬ hasAcceptedAdjustment ["|C100|".toList, "|C170|1|CODX|DESC|1|UN|0|0|0|0|2551|".toList] ∧
    status_difal ["|C100|".toList, "|C170|1|CODX|DESC|1|UN|0|0|0|0|2551|".toList] =
      "Não se aplica DIFAL".toList ∧
    status_difal ["|C100|".toList, "|C170|1|CODX|DESC|1|UN|0|0|0|0|2551|".toList] ≠
      "DIFAL não apurado (há 2551/2556 sem evidência)".toList := by decide

/-- C1 (amended): the summary table has exactly one row, and its status is the
4-way decision table over (has a target-CFOP document with non-empty document
number) x (has a classifier-accepted DIFAL adjustment). -/
theorem claim_C1_summary_status (lines : List Str) :
    (resumo_rows lines).length = 1 ∧
    ∀ r ∈ resumo_rows lines,
      r.status = (if hasTargetDocWithNumero lines then
                    (if hasAcceptedAdjustment lines then "DIFAL OK".toList
                     else "DIFAL não apurado (há 2551/2556 sem evidência)".toList)
                  else
                    (if hasAcceptedAdjustment lines then
                      "Ajuste presente sem NF 2551/2556 (verificar coerência)".toList
                     else "Não se aplica DIFAL".toList)) := by
  refine ⟨rfl, ?_⟩
  intro r hr
  have hrow : r = ⟨status_difal lines, joinWith ", ".toList (numeros_nfs_alvo lines),
      joinWith ", ".toList (codigos_usados lines)⟩ := by
    simpa [resumo_rows] using hr
  subst hrow
  show status_difal lines = _
  unfold status_difal
  by_cases hn : hasTargetDocWithNumero lines
  · have hne : numeros_nfs_alvo lines ≠ [] := (numeros_ne_nil_iff lines).mpr hn
    by_cases ha : hasAcceptedAdjustment lines
    · have ht : tem_ajuste_difal lines = true := (tem_ajuste_iff lines).mpr ha
      rw [if_neg (by simp [hne]), if_neg (by simp [ht]), if_pos ⟨hne, ht⟩,
        if_pos hn, if_pos ha]
    · have ht : tem_ajuste_difal lines = false := by
        rw [← Bool.not_eq_true, tem_ajuste_iff]
        exact ha
      rw [if_neg (by simp [hne]), if_pos ⟨hne, ht⟩, if_pos hn, if_neg ha]
  · have hne : numeros_nfs_alvo lines = [] := by
      by_contra hc
      exact hn ((numeros_ne_nil_iff lines).mp hc)
    by_cases ha : hasAcceptedAdjustment lines
    · have ht : tem_ajuste_difal lines = true := (tem_ajuste_iff lines).mpr ha
      rw [if_neg (by simp [ht]), if_neg (by simp [hne]), if_neg (by simp [hne]),
        if_neg hn, if_pos ha]
    · have ht : tem_ajuste_difal lines = false := by
        rw [← Bool.not_eq_true, tem_ajuste_iff]
        exact ha
      rw [if_pos ⟨hne, ht⟩, if_neg hn, if_neg ha]

/-- C1 amended-claim witness: the decision table evaluated on the empty file. -/
theorem claim_C1_summary_status_witness :
    (⟨"Não se aplica DIFAL".toList, [], []⟩ : ResumoRow) ∈ resumo_rows ([] : List Str) ∧
    (⟨"Não se aplica DIFAL".toList, [], []⟩ : ResumoRow).status =
      "Não se aplica DIFAL".toList := by
  refine ⟨by decide, ?_⟩
  exact ((claim_C1_summary_status []).2 _ (by decide)).trans
    (by rw [if_neg (by decide), if_neg (by decide)])

theorem all_pySortedSet_iff (p : Str → Bool) (l : List Str) :
    ((pySortedSet l).all p = true) ↔ ∀ x ∈ l, p x = true := by
  rw [List.all_eq_true]
  constructor
  · intro h x hx
    exact h x ((mem_pySortedSet x l).mpr hx)
  · intro h x hx
    exact h x ((mem_pySortedSet x l).mp hx)

theorem all_sortedSet_map_iff {α : Type} (f : α → Str) (p : Str → Bool) (v : List α) :
    ((pySortedSet (v.map f)).all p = true) ↔ ∀ a ∈ v, p (f a) = true := by
  rw [all_pySortedSet_iff]
  constructor
  · intro h a ha
    exact h (f a) (List.mem_map_of_mem f ha)
  · intro h x hx
    obtain ⟨a, ha, rfl⟩ := List.mem_map.mp hx
    exact h a ha

theorem conformidade_iff (lines : List Str) (hcu : codigos_usados lines ≠ []) :
    conformidade_whitelist lines = true ↔ allEvidCodesWhitelisted lines := by
  unfold conformidade_whitelist
  rw [if_neg hcu]
  unfold allEvidCodesWhitelisted codigos_c197 codigos_e111 codigos_e115 codigos_e116
  rw [Bool.and_eq_true, Bool.and_eq_true, Bool.and_eq_true]
  rw [all_sortedSet_map_iff, all_sortedSet_map_iff, all_sortedSet_map_iff,
    all_sortedSet_map_iff]
  tauto

theorem codigos_usados_ne_nil (lines : List Str) (h : hasAcceptedAdjustment lines) :
    codigos_usados lines ≠ [] := by
  rw [← tem_ajuste_iff] at h
  unfold tem_ajuste_difal at h
  rw [Bool.or_eq_true, decide_eq_true_eq, decide_eq_true_eq] at h
  unfold codigos_usados
  rw [Ne, pySortedSet_eq_nil_iff]
  intro hnil
  rw [List.append_eq_nil, List.append_eq_nil, List.append_eq_nil] at hnil
  obtain ⟨⟨⟨h1, h2⟩, h3⟩, h4⟩ := hnil
  rcases h with hc | hev
  · rw [codigos_c197, pySortedSet_eq_nil_iff, List.map_eq_nil_iff] at h1
    exact hc h1
  · rw [evid_periodo_ne_nil_iff] at hev
    rcases hev with he | he | he
    · rw [codigos_e111, pySortedSet_eq_nil_iff, List.map_eq_nil_iff] at h2
      exact he h2
    · rw [codigos_e115, pySortedSet_eq_nil_iff, List.map_eq_nil_iff] at h3
      exact he h3
    · rw [codigos_e116, pySortedSet_eq_nil_iff, List.map_eq_nil_iff] at h4
      exact he h4

/-- C4: the checklist has exactly one row, and its compliance verdict is
`Sim (whitelist UF)` exactly when DIFAL evidence exists and every evidenced
adjustment code is whitelist-covered for its record type (or the wildcard),
`Parcial/Não (códigos fora da whitelist)` exactly when evidence exists but
some evidenced code is not whitelist-covered (hence only keyword-matched), and
`Não se aplica / Ausente` otherwise. -/
theorem claim_C4_checklist_verdict (lines : List Str) :
    (check_rows lines).length = 1 ∧
    ∀ r ∈ check_rows lines,
      (r.conformeLeg = "Sim (whitelist UF)".toList ↔
        (hasAcceptedAdjustment lines ∧ allEvidCodesWhitelisted lines)) ∧
      (r.conformeLeg = "Parcial/Não (códigos fora da whitelist)".toList ↔
        (hasAcceptedAdjustment lines ∧ ¬ allEvidCodesWhitelisted lines)) ∧
      (r.conformeLeg = "Não se aplica / Ausente".toList ↔
        ¬ hasAcceptedAdjustment lines) := by
  refine ⟨rfl, ?_⟩
  intro r hr
  have hcl : r.conformeLeg = conforme_leg lines := by
    have hrow : r = ⟨(if numeros_nfs_alvo lines ≠ [] then "Sim".toList else "Não".toList),
        joinWith ", ".toList (numeros_nfs_alvo lines),
        (if tem_ajuste_difal lines = true then "Sim".toList else "Não".toList),
        codigos_descricoes lines, conforme_leg lines⟩ := by
      simpa [check_rows] using hr
    rw [hrow]
  rw [hcl]
  unfold conforme_leg
  by_cases ha : hasAcceptedAdjustment lines
  · have ht : tem_ajuste_difal lines = true := (tem_ajuste_iff lines).mpr ha
    have hcu : codigos_usados lines ≠ [] := codigos_usados_ne_nil lines ha
    by_cases hcov : allEvidCodesWhitelisted lines
    · have hcf : conformidade_whitelist lines = true := (conformidade_iff lines hcu).mpr hcov
      rw [if_pos ⟨ht, hcf⟩]
      refine ⟨⟨fun _ => ⟨ha, hcov⟩, fun _ => rfl⟩, ?_, ?_⟩
      · constructor
        · intro hstr
          exact absurd hstr (by decide)
        · rintro ⟨_, hnc⟩
          exact absurd hcov hnc
      · constructor
        · intro hstr
          exact absurd hstr (by decide)
        · intro hna
          exact absurd ha hna
    · have hcf : conformidade_whitelist lines = false := by
        rw [← Bool.not_eq_true, conformidade_iff lines hcu]
        exact hcov
      rw [if_neg (by rw [hcf]; rintro ⟨_, hcontra⟩; exact Bool.false_ne_true hcontra),
        if_pos ⟨ht, hcf, hcu⟩]
      refine ⟨?_, ⟨fun _ => ⟨ha, hcov⟩, fun _ => rfl⟩, ?_⟩
      · constructor
        · intro hstr
          exact absurd hstr (by decide)
        · rintro ⟨_, hc⟩
          exact absurd hc hcov
      · constructor
        · intro hstr
          exact absurd hstr (by decide)
        · intro hna
          exact absurd ha hna
  · have ht : tem_ajuste_difal lines = false := by
      rw [← Bool.not_eq_true, tem_ajuste_iff]
      exact ha
    rw [if_neg (by rw [ht]; rintro ⟨hcontra, _⟩; exact Bool.false_ne_true hcontra),
      if_neg (by rw [ht]; rintro ⟨hcontra, _⟩; exact Bool.false_ne_true hcontra)]
    refine ⟨?_, ?_, ⟨fun _ => ha, fun _ => rfl⟩⟩
    · constructor
      · intro hstr
        exact absurd hstr (by decide)
      · rintro ⟨hc, _⟩
        exact absurd hc ha
    · constructor
      · intro hstr
        exact absurd hstr (by decide)
      · rintro ⟨hc, _⟩
        exact absurd hc ha

/-- C4 witness: the verdict evaluated on the empty file. -/
theorem claim_C4_checklist_verdict_witness :
    (⟨"Não".toList, [], "Não".toList, [], "Não se aplica / Ausente".toList⟩ : CheckRow)
      ∈ check_rows ([] : List Str) ∧
    ¬ hasAcceptedAdjustment ([] : List Str) := by
  refine ⟨by decide, ?_⟩
  exact (((claim_C4_checklist_verdict []).2
    ⟨"Não".toList, [], "Não".toList, [], "Não se aplica / Ausente".toList⟩
    (by decide)).2.2).mp (by decide)

theorem alookup_addToKey {α : Type} (m : List (Str × List α)) (k q : Str) (v : α) :
    alookup (addToKey m k v) q =
      if q = k then alookup m q ++ [v] else alookup m q := by
  induction m with
  | nil =>
    by_cases h : q = k
    · subst h
      simp [addToKey, alookup]
    · have h' : ¬ k = q := fun hk => h hk.symm
      simp [addToKey, alookup, h, h']
  | cons pr rest ih =>
    obtain ⟨k', vs⟩ := pr
    by_cases hk : k' = k
    · subst hk
      by_cases hq : q = k'
      · subst hq
        simp [addToKey, alookup]
      · have h' : ¬ k' = q := fun e => hq e.symm
        simp [addToKey, alookup, hq, h']
    · simp only [addToKey, if_neg hk]
      by_cases hq : q = k'
      · subst hq
        simp [alookup, hk]
      · have h' : ¬ k' = q := fun e => hq e.symm
        simp only [alookup, if_neg h']
        exact ih

theorem alookup_fold_c197 (l : List AjC197) (m : List (Str × List Evid)) (q : Str) :
    alookup (l.foldl (fun m a =>
        if a.did ≠ [] then addToKey m a.did ⟨"C197".toList, a.cod, a.descr, a.vl⟩ else m) m) q
      = alookup m q ++ (l.filter (fun a => decide (a.did ≠ []) && decide (a.did = q))).map
          (fun a => (⟨"C197".toList, a.cod, a.descr, a.vl⟩ : Evid)) := by
  induction l generalizing m with
  | nil => simp
  | cons a t ih =>
    rw [List.foldl_cons]
    by_cases hp : a.did ≠ []
    · rw [if_pos hp, ih, alookup_addToKey]
      by_cases hk : a.did = q
      · rw [if_pos hk.symm,
          List.filter_cons_of_pos
            (by simp only [Bool.and_eq_true, decide_eq_true_eq]; exact ⟨hp, hk⟩),
          List.map_cons, List.append_assoc]
        rfl
      · rw [if_neg (fun hqk => hk hqk.symm), List.filter_cons_of_neg (by simp [hk])]
    · rw [if_neg hp, ih, List.filter_cons_of_neg (by simp at hp; simp [hp])]

theorem alookup_fold_obs (l : List (Str × List Str)) (m : List (Str × List Evid)) (q : Str) :
    alookup (l.foldl (fun m pr =>
        if pr.2.any eh_desc_difal then addToKey m pr.1 ⟨"C195".toList, [], obsDifalMsg, 0⟩ else m) m) q
      = alookup m q ++ (l.filter (fun pr => pr.2.any eh_desc_difal && decide (pr.1 = q))).map
          (fun _ => (⟨"C195".toList, [], obsDifalMsg, 0⟩ : Evid)) := by
  induction l generalizing m with
  | nil => simp
  | cons pr t ih =>
    rw [List.foldl_cons]
    by_cases hp : pr.2.any eh_desc_difal = true
    · rw [if_pos hp, ih, alookup_addToKey]
      by_cases hk : pr.1 = q
      · rw [if_pos hk.symm,
          List.filter_cons_of_pos
            (by simp only [Bool.and_eq_true, decide_eq_true_eq]; exact ⟨hp, hk⟩),
          List.map_cons, List.append_assoc]
        rfl
      · rw [if_neg (fun hqk => hk hqk.symm), List.filter_cons_of_neg (by simp [hk])]
    · rw [if_neg hp, ih, List.filter_cons_of_neg (by simp [Bool.eq_false_iff.mpr hp])]

theorem alookup_doc_validos (lines : List Str) (q : Str) :
    alookup (ajustes_doc_validos lines) q
      = ((ajustes_c197_validos lines).filter
            (fun a => decide (a.did ≠ []) && decide (a.did = q))).map
          (fun a => (⟨"C197".toList, a.cod, a.descr, a.vl⟩ : Evid))
        ++ (((audScan lines).obs).filter
            (fun pr => pr.2.any eh_desc_difal && decide (pr.1 = q))).map
          (fun _ => (⟨"C195".toList, [], obsDifalMsg, 0⟩ : Evid)) := by
  unfold ajustes_doc_validos
  rw [alookup_fold_obs, alookup_fold_c197]
  rfl

theorem doc_own_evidence_empty (lines : List Str) (q : Str)
    (hnoc : ∀ a ∈ (audScan lines).c197, a.did = q →
        eh_ajuste_difal (ufOf lines) "C197".toList a.cod a.descr = false)
    (hnoobs : ∀ pr ∈ (audScan lines).obs, pr.1 = q → pr.2.any eh_desc_difal = false) :
    alookup (ajustes_doc_validos lines) q = [] := by
  rw [alookup_doc_validos]
  have h1 : (ajustes_c197_validos lines).filter
      (fun a => decide (a.did ≠ []) && decide (a.did = q)) = [] := by
    rw [List.filter_eq_nil_iff]
    intro a ha
    rw [ajustes_c197_validos, List.mem_filter] at ha
    simp only [Bool.and_eq_true, decide_eq_true_eq, not_and]
    intro _ hd
    have hfalse := hnoc a ha.1 hd
    have htrue := ha.2
    rw [hfalse] at htrue
    exact absurd htrue (by simp)
  have h2 : ((audScan lines).obs).filter
      (fun pr => pr.2.any eh_desc_difal && decide (pr.1 = q)) = [] := by
    rw [List.filter_eq_nil_iff]
    intro pr hpr
    simp only [Bool.and_eq_true, decide_eq_true_eq, not_and]
    intro hany hd
    have := hnoobs pr hpr hd
    rw [this] at hany
    exact absurd hany (by simp)
  rw [h1, h2]
  rfl

theorem mem_analise_of_fallback (lines : List Str) (d : Doc) (it : Item)
    (hd : d ∈ docsOf lines) (halvo : temCfopAlvo d = true)
    (hit : it ∈ d.itens) (hcf : eh_cfop_alvo it.cfop = true)
    (hown : alookup (ajustes_doc_validos lines) (docIdOf d) = [])
    (e : Evid) (he : e ∈ evid_periodo lines) :
    mkAnaliseRow d it e ∈ analise_rows lines := by
  unfold analise_rows
  rw [List.mem_flatMap]
  refine ⟨d, by rw [docs_alvo, List.mem_filter]; exact ⟨hd, halvo⟩, ?_⟩
  rw [List.mem_flatMap]
  refine ⟨it, by rw [List.mem_filter]; exact ⟨hit, hcf⟩, ?_⟩
  unfold linhas_ajuste
  rw [if_neg (by simp [hown]), if_pos (List.ne_nil_of_mem he)]
  exact List.mem_map_of_mem _ he

theorem sem_rows_nil_of_evid (lines : List Str) (hev : evid_periodo lines ≠ []) :
    sem_rows lines = [] := by
  unfold sem_rows
  rw [List.flatMap_eq_nil_iff]
  intro d _
  rw [if_neg (fun hc => hev hc.2)]

/-- C2: an item with a target CFOP in a document with no own evidence (no
classifier-accepted `C197` keyed to its identity, no observation matching the
DIFAL keyword heuristic) is, whenever the file has at least one accepted
period-level adjustment, joined in the analysis table to every entry of the
period-level evidence pool, and the unevidenced table is empty. -/
theorem claim_C2_period_fallback (lines : List Str) (d : Doc) (it : Item)
    (hd : d ∈ docsOf lines) (hit : it ∈ d.itens) (hcf : eh_cfop_alvo it.cfop = true)
    (hnoc : ∀ a ∈ (audScan lines).c197, a.did = docIdOf d →
        eh_ajuste_difal (ufOf lines) "C197".toList a.cod a.descr = false)
    (hnoobs : ∀ pr ∈ (audScan lines).obs, pr.1 = docIdOf d →
        pr.2.any eh_desc_difal = false)
    (hper : evid_periodo lines ≠ []) :
    (∀ e ∈ evid_periodo lines, mkAnaliseRow d it e ∈ analise_rows lines) ∧
    sem_rows lines = [] := by
  have halvo : temCfopAlvo d = true := by
    unfold temCfopAlvo
    rw [List.any_eq_true]
    exact ⟨it, hit, hcf⟩
  have hown := doc_own_evidence_empty lines (docIdOf d) hnoc hnoobs
  exact ⟨fun e he => mem_analise_of_fallback lines d it hd halvo hit hcf hown e he,
    sem_rows_nil_of_evid lines hper⟩

/-- C2 witness: a concrete file with one target document without own evidence
and one keyword-accepted `E111` period adjustment. -/
theorem claim_C2_period_fallback_witness :
    mkAnaliseRow ⟨"SER".toList, "NUM".toList, "CHAVE".toList,
        [⟨"DESC".toList, "2551".toList, 1⟩]⟩ ⟨"DESC".toList, "2551".toList, 1⟩
        ⟨"E111".toList, "X".toList, "diferencial de aliquota".toList, 10⟩
      ∈ analise_rows ["|C100|a|b|c|d|e|SER|NUM|CHAVE|".toList,
        "|C170|1|CODX|DESC|1|UN|0|0|0|0|2551|".toList,
        "|E111|X|diferencial de aliquota|10|".toList] ∧
    sem_rows ["|C100|a|b|c|d|e|SER|NUM|CHAVE|".toList,
        "|C170|1|CODX|DESC|1|UN|0|0|0|0|2551|".toList,
        "|E111|X|diferencial de aliquota|10|".toList] = [] := by
  have h := claim_C2_period_fallback
    ["|C100|a|b|c|d|e|SER|NUM|CHAVE|".toList,
     "|C170|1|CODX|DESC|1|UN|0|0|0|0|2551|".toList,
     "|E111|X|diferencial de aliquota|10|".toList]
    ⟨"SER".toList, "NUM".toList, "CHAVE".toList, [⟨"DESC".toList, "2551".toList, 1⟩]⟩
    ⟨"DESC".toList, "2551".toList, 1⟩
    (by decide) (by decide) (by decide) (by decide) (by decide) (by decide)
  exact ⟨h.1 ⟨"E111".toList, "X".toList, "diferencial de aliquota".toList, 10⟩ (by decide),
    h.2⟩

theorem audStep_current_none (st : AudState) (l : Str) (h : isC100Line l = false)
    (hc : st.current = none) : (audStep st l).current = none := by
  have hmap := (audStep_not_c100 st l h).2
  rw [hc] at hmap
  simp only [Option.map_none'] at hmap
  exact Option.map_eq_none'.mp hmap

theorem foldl_current_none (ls : List Str) (st : AudState) (hc : st.current = none)
    (h : ∀ l ∈ ls, isC100Line l = false) : (ls.foldl audStep st).current = none := by
  induction ls generalizing st with
  | nil => exact hc
  | cons l t ih =>
    rw [List.foldl_cons]
    exact ih (audStep st l) (audStep_current_none st l (h l (by simp)) hc)
      (fun x hx => h x (by simp [hx]))

set_option maxHeartbeats 1000000 in
theorem audStep_c197_mono (st : AudState) (l : Str) (a : AjC197)
    (ha : a ∈ st.c197) : a ∈ (audStep st l).c197 := by
  cases hc : st.current with
  | none =>
    simp only [audStep, hc]
    split_ifs <;> simp [ha]
  | some d =>
    simp only [audStep, hc]
    split_ifs <;> simp [ha]

theorem foldl_c197_mono (ls : List Str) (st : AudState) (a : AjC197)
    (ha : a ∈ st.c197) : a ∈ (ls.foldl audStep st).c197 := by
  induction ls generalizing st with
  | nil => exact ha
  | cons l t ih =>
    rw [List.foldl_cons]
    exact ih (audStep st l) (audStep_c197_mono st l a ha)

theorem audStep_c197_orphan (st : AudState) (l : Str)
    (hline : isC197Line l = true) (hc : st.current = none) :
    (⟨c197CodOf l, c197DescrOf l, lastPosVal ((splitPipe (pyStrip l)).drop 2), []⟩ : AjC197)
      ∈ (audStep st l).c197 := by
  unfold isC197Line at hline
  simp only [Bool.and_eq_true, decide_eq_true_eq] at hline
  obtain ⟨⟨hne, hpipe⟩, hrty⟩ := hline
  have hg : ¬(pyStrip l = [] ∨ '|' ∉ pyStrip l) := by
    push_neg
    exact ⟨hne, hpipe⟩
  simp only [audStep]
  rw [if_neg hg, hrty]
  rw [if_neg (by decide), if_neg (by decide), if_neg (by decide), if_pos rfl, hc]
  simp [c197CodOf, c197DescrOf]

theorem docIdOf_ne_nil (d : Doc) : docIdOf d ≠ [] := by
  unfold docIdOf
  intro h
  rw [List.append_eq_nil] at h
  exact absurd h.2 (by simp)

theorem mem_sem_rows_of_no_evidence (lines : List Str) (d : Doc) (it : Item)
    (hd : d ∈ docsOf lines) (halvo : temCfopAlvo d = true)
    (hit : it ∈ d.itens) (hcf : eh_cfop_alvo it.cfop = true)
    (hown : alookup (ajustes_doc_validos lines) (docIdOf d) = [])
    (hev : evid_periodo lines = []) :
    mkSemRow d it ∈ sem_rows lines := by
  unfold sem_rows
  rw [List.mem_flatMap]
  refine ⟨d, by rw [docs_alvo, List.mem_filter]; exact ⟨hd, halvo⟩, ?_⟩
  rw [if_pos ⟨hown, hev⟩]
  exact List.mem_map_of_mem _ (by rw [List.mem_filter]; exact ⟨hit, hcf⟩)

/-- C5: a classifier-accepted `C197` record appearing before any `C100` is
stored with an empty document identity.  It turns the file-level DIFAL flag on
(checklist answers `Sim`; with target notes present the summary reads
`DIFAL OK`), yet document evidence is only ever keyed by a document's own
non-empty identity (so the orphan is attached to no document), the
period-level fallback never carries `C197` entries, and a flagged item whose
document has no other evidence still lands in the unevidenced table. -/
theorem claim_C5_orphan_c197 (lines pre post : List Str) (c197line : Str)
    (hsplit : lines = pre ++ c197line :: post)
    (hpre : ∀ l ∈ pre, isC100Line l = false)
    (hline : isC197Line c197line = true)
    (hacc : eh_ajuste_difal (ufOf lines) "C197".toList
        (c197CodOf c197line) (c197DescrOf c197line) = true) :
    (∃ a ∈ ajustes_c197_validos lines, a.did = []) ∧
    tem_ajuste_difal lines = true ∧
    (∀ r ∈ check_rows lines, r.temAjuste = "Sim".toList) ∧
    (numeros_nfs_alvo lines ≠ [] → status_difal lines = "DIFAL OK".toList) ∧
    (∀ (d' : Doc), ∀ e ∈ alookup (ajustes_doc_validos lines) (docIdOf d'),
      e.reg = "C195".toList ∨
        ∃ a ∈ ajustes_c197_validos lines, a.did = docIdOf d' ∧ a.did ≠ []) ∧
    (∀ e ∈ evid_periodo lines, e.reg ≠ "C197".toList) ∧
    (∀ d' ∈ docsOf lines, ∀ it ∈ d'.itens, temCfopAlvo d' = true →
      eh_cfop_alvo it.cfop = true →
      alookup (ajustes_doc_validos lines) (docIdOf d') = [] →
      evid_periodo lines = [] →
      mkSemRow d' it ∈ sem_rows lines) := by
  have hscan : audScan lines =
      post.foldl audStep (audStep (pre.foldl audStep audInit) c197line) := by
    rw [hsplit, audScan, List.foldl_append, List.foldl_cons]
  have hprecur : (pre.foldl audStep audInit).current = none :=
    foldl_current_none pre audInit rfl hpre
  have horphan0 := audStep_c197_orphan (pre.foldl audStep audInit) c197line hline hprecur
  have horphan : (⟨c197CodOf c197line, c197DescrOf c197line,
      lastPosVal ((splitPipe (pyStrip c197line)).drop 2), []⟩ : AjC197)
      ∈ (audScan lines).c197 := by
    rw [hscan]
    exact foldl_c197_mono post _ _ horphan0
  have hmemv : (⟨c197CodOf c197line, c197DescrOf c197line,
      lastPosVal ((splitPipe (pyStrip c197line)).drop 2), []⟩ : AjC197)
      ∈ ajustes_c197_validos lines := by
    rw [ajustes_c197_validos, List.mem_filter]
    exact ⟨horphan, hacc⟩
  have hne : ajustes_c197_validos lines ≠ [] := List.ne_nil_of_mem hmemv
  have ht : tem_ajuste_difal lines = true := by
    unfold tem_ajuste_difal
    simp [hne]
  refine ⟨⟨_, hmemv, rfl⟩, ht, ?_, ?_, ?_, ?_, ?_⟩
  · intro r hr
    have hrow : r = ⟨(if numeros_nfs_alvo lines ≠ [] then "Sim".toList else "Não".toList),
        joinWith ", ".toList (numeros_nfs_alvo lines),
        (if tem_ajuste_difal lines = true then "Sim".toList else "Não".toList),
        codigos_descricoes lines, conforme_leg lines⟩ := by
      simpa [check_rows] using hr
    rw [hrow]
    show (if tem_ajuste_difal lines = true then "Sim".toList else "Não".toList) = "Sim".toList
    rw [if_pos ht]
  · intro hn
    unfold status_difal
    rw [if_neg (by simp [hn]), if_neg (by simp [ht]), if_pos ⟨hn, ht⟩]
  · intro d' e he
    rw [alookup_doc_validos] at he
    rcases List.mem_append.mp he with hin | hin
    · obtain ⟨a, ha, rfl⟩ := List.mem_map.mp hin
      rw [List.mem_filter] at ha
      have hcond := ha.2
      simp only [Bool.and_eq_true, decide_eq_true_eq] at hcond
      exact Or.inr ⟨a, ha.1, hcond.2, hcond.1⟩
    · obtain ⟨a, _, rfl⟩ := List.mem_map.mp hin
      exact Or.inl rfl
  · intro e he
    unfold evid_periodo at he
    rcases List.mem_append.mp he with hin | hin
    · rcases List.mem_append.mp hin with hin2 | hin2
      · obtain ⟨a, _, rfl⟩ := List.mem_map.mp hin2
        show "E111".toList ≠ "C197".toList
        decide
      · obtain ⟨a, _, rfl⟩ := List.mem_map.mp hin2
        show "E115".toList ≠ "C197".toList
        decide
    · obtain ⟨a, _, rfl⟩ := List.mem_map.mp hin
      show "E116".toList ≠ "C197".toList
      decide
  · intro d' hd' it hit halvo hcf hown hev
    exact mem_sem_rows_of_no_evidence lines d' it hd' halvo hit hcf hown hev

/-- C5 witness: a concrete file whose accepted `C197` precedes the only
`C100`; the summary says `DIFAL OK` while the target item still lands in the
unevidenced table. -/
theorem claim_C5_orphan_c197_witness :
    tem_ajuste_difal ["|C197|X1|diferencial de aliquota|10|".toList,
        "|C100|a|b|c|d|e|SER|NUM|CHAVE|".toList,
        "|C170|1|CODX|DESC|1|UN|0|0|0|0|2551|".toList] = true ∧
    status_difal ["|C197|X1|diferencial de aliquota|10|".toList,
        "|C100|a|b|c|d|e|SER|NUM|CHAVE|".toList,
        "|C170|1|CODX|DESC|1|UN|0|0|0|0|2551|".toList] = "DIFAL OK".toList ∧
    mkSemRow ⟨"SER".toList, "NUM".toList, "CHAVE".toList,
        [⟨"DESC".toList, "2551".toList, 1⟩]⟩ ⟨"DESC".toList, "2551".toList, 1⟩
      ∈ sem_rows ["|C197|X1|diferencial de aliquota|10|".toList,
        "|C100|a|b|c|d|e|SER|NUM|CHAVE|".toList,
        "|C170|1|CODX|DESC|1|UN|0|0|0|0|2551|".toList] := by
  have h := claim_C5_orphan_c197
    ["|C197|X1|diferencial de aliquota|10|".toList,
     "|C100|a|b|c|d|e|SER|NUM|CHAVE|".toList,
     "|C170|1|CODX|DESC|1|UN|0|0|0|0|2551|".toList]
    []
    ["|C100|a|b|c|d|e|SER|NUM|CHAVE|".toList,
     "|C170|1|CODX|DESC|1|UN|0|0|0|0|2551|".toList]
    "|C197|X1|diferencial de aliquota|10|".toList
    rfl (by decide) (by decide) (by decide)
  refine ⟨h.2.1, h.2.2.2.1 (by decide), ?_⟩
  exact h.2.2.2.2.2.2 ⟨"SER".toList, "NUM".toList, "CHAVE".toList,
      [⟨"DESC".toList, "2551".toList, 1⟩]⟩ (by decide)
    ⟨"DESC".toList, "2551".toList, 1⟩ (by decide) (by decide) (by decide)
    (by decide) (by decide)

end SpedAudit
